import Mathlib

/-!
Shallow embedding of the Matsmart receipt-ingestion pipeline (src/main.py).

The program watches a directory for PDF receipts, sends each one to an
external extraction service, projects the returned JSON into 8-field sink
rows, appends them to a spreadsheet sink, and moves the file to a
`receipts_processed` or `receipts_error` directory.

External library calls (file upload, model generation, `json.loads`, the
sheet append, `shutil.move`) are modelled as boundary outcomes supplied in
an environment record; the control flow around them — the `try`/`except`
structure of `process_receipt`, the `dict.get` defaulting, the row
projection loop, the `if rows_to_add:` guard, the startup listing filter
and the watchdog handler — is translated statement by statement from the
source.
-/

namespace Matsmart

/-- A JSON value, as produced by `json.loads` on the extraction service's
response text. Objects keep their fields as an association list. -/
inductive JVal where
  | null
  | bool (b : Bool)
  | num (q : Rat)
  | str (s : String)
  | arr (elems : List JVal)
  | obj (fields : List (String × JVal))

/-- Kinds of Python exceptions that can arise inside the `try` block of
`process_receipt`. Which kind is raised is irrelevant to the program (the
handler catches every `Exception`); we track them only for precision. -/
inductive PyErr where
  | extractionError  -- upload / generate_content failure (transport, auth)
  | jsonError        -- json.loads failed: response text is not valid JSON
  | attrError        -- `.get` called on a non-dict value
  | typeError        -- `for item in items` over a non-iterable value
deriving DecidableEq

/-- Whether a JSON value is an object (a Python dict). -/
def JVal.isObj : JVal → Bool
  | .obj _ => true
  | _ => false

/-- Python's `d.get(key, default)`: succeeds with the field value (or the
default when the key is absent) when `d` is a dict, and raises
`AttributeError` on any other value. -/
def dictGet : JVal → String → JVal → Except PyErr JVal
  | .obj fields, key, dflt => .ok ((fields.lookup key).getD dflt)
  | _, _, _ => .error .attrError

/-- Python iteration `for item in items`: lists yield their elements,
strings yield their characters (as one-character strings), dicts yield
their keys; every other value raises `TypeError`. -/
def pyIter : JVal → Except PyErr (List JVal)
  | .arr elems => .ok elems
  | .str s => .ok (s.data.map fun c => .str (String.mk [c]))
  | .obj fields => .ok (fields.map fun p => .str p.1)
  | _ => .error .typeError

/-- One row of `rows_to_add` (src/main.py lines 82-91): the 8-element list
built from `meta.get`/`item.get` calls, in source order, each with default
`""`. Fails when `meta` or `item` is not a dict. -/
def mkRow (meta item : JVal) : Except PyErr (List JVal) := do
  let date ← dictGet meta "date" (.str "")
  let store ← dictGet meta "store" (.str "")
  let product ← dictGet item "product_name" (.str "")
  let category ← dictGet item "category" (.str "")
  let calories ← dictGet item "calories_per_100g" (.str "")
  let quantity ← dictGet item "quantity_or_weight" (.str "")
  let price ← dictGet item "item_total_price" (.str "")
  let total ← dictGet meta "total_receipt_cost" (.str "")
  pure [date, store, product, category, calories, quantity, price, total]

/-- The `for item in items` loop accumulating `rows_to_add`: rows are built
left to right and the first failing item aborts the whole attempt. -/
def buildRows (meta : JVal) : List JVal → Except PyErr (List (List JVal))
  | [] => .ok []
  | item :: rest => do
    let row ← mkRow meta item
    let rows ← buildRows meta rest
    pure (row :: rows)

/-- Outcomes of the external boundary calls made during one
`process_receipt` attempt: whether the upload + `generate_content` calls
succeed, the result of `json.loads` on the response text (`.error` when
the text is not valid JSON), and whether the sink append and the two
`shutil.move` calls succeed. -/
structure Env where
  extractOk : Bool
  parsed : Except Unit JVal
  sinkOk : Bool
  moveProcessedOk : Bool
  moveErrorOk : Bool

/-- The body of the `try` block of `process_receipt` up to (but not
including) the sink append: upload and generation, `json.loads`,
`data.get("receipt_metadata", {})`, `data.get("items", [])`, and the
row-building loop. Returns the final `rows_to_add`. -/
def tryRows (env : Env) : Except PyErr (List (List JVal)) := do
  if env.extractOk = false then
    throw .extractionError
  let data ← match env.parsed with
    | .ok v => pure v
    | .error _ => throw PyErr.jsonError
  let meta ← dictGet data "receipt_metadata" (.obj [])
  let items ← dictGet data "items" (.arr [])
  let itemList ← pyIter items
  buildRows meta itemList

/-- The three state directories, each holding the (base)names of the files
currently inside it. -/
structure FS where
  incoming : List String
  processed : List String
  errorDir : List String
deriving DecidableEq

/-- `shutil.move(file_path, PROCESSED_FOLDER/…)`: the file leaves Incoming
and is appended to Processed. -/
def moveToProcessed (fs : FS) (name : String) : FS :=
  { fs with incoming := fs.incoming.erase name, processed := fs.processed ++ [name] }

/-- `shutil.move(file_path, ERROR_FOLDER/…)`: the file leaves Incoming and
is appended to Error. -/
def moveToError (fs : FS) (name : String) : FS :=
  { fs with incoming := fs.incoming.erase name, errorDir := fs.errorDir ++ [name] }

/-- State after one `process_receipt` call: the directories, the sink (a
list of appended batches, each batch a list of rows), and whether an
exception escaped the call to its caller. -/
structure PResult where
  fs : FS
  sink : List (List (List JVal))
  raised : Bool

/-- The `except` handler (src/main.py lines 102-104): move the file to the
Error directory; if that move itself fails the exception propagates to the
caller and the directories are unchanged. -/
def quarantineMove (env : Env) (name : String) (fs : FS)
    (sink : List (List (List JVal))) : PResult :=
  if env.moveErrorOk then ⟨moveToError fs name, sink, false⟩
  else ⟨fs, sink, true⟩

/-- `process_receipt` (src/main.py lines 58-104), acting on a file `name`
sitting in Incoming: run the `try` block (extraction, parsing, row
building); when `rows_to_add` is non-empty append them to the sink as one
batch (`sheet.append_rows`); move the file to Processed; any failure along
the way falls into the handler, which moves the file to Error. -/
def process_receipt (env : Env) (name : String) (fs : FS)
    (sink : List (List (List JVal))) : PResult :=
  match tryRows env with
  | .error _ => quarantineMove env name fs sink
  | .ok rows =>
    if rows.isEmpty then
      if env.moveProcessedOk then ⟨moveToProcessed fs name, sink, false⟩
      else quarantineMove env name fs sink
    else
      if env.sinkOk then
        if env.moveProcessedOk then ⟨moveToProcessed fs name, sink ++ [rows], false⟩
        else quarantineMove env name fs (sink ++ [rows])
      else quarantineMove env name fs sink

/-- Whether the whole guarded sequence of one attempt succeeds, i.e. the
`try` block runs to completion: rows built, sink append succeeded (or was
skipped because `rows_to_add` was empty), and the move to Processed
succeeded. -/
def attemptSucceeds (env : Env) : Bool :=
  match tryRows env with
  | .error _ => false
  | .ok rows => (rows.isEmpty || env.sinkOk) && env.moveProcessedOk

/-- Python's `d.get(key, "")` as a total function on objects: the field
value when present, the empty string otherwise (and the empty string on a
non-dict, a case the row-building lemmas rule out). -/
def pyGetD (v : JVal) (key : String) : JVal :=
  match v with
  | .obj fields => (fields.lookup key).getD (.str "")
  | _ => .str ""

/-- The row `process_receipt` builds for one item: the fixed-order
8-field list (date, store, product_name, category, calories_per_100g,
quantity_or_weight, item_total_price, total_receipt_cost), with metadata
fields taken from `meta` and item fields from `item`. -/
def rowSpec (meta item : JVal) : List JVal :=
  [pyGetD meta "date", pyGetD meta "store",
   pyGetD item "product_name", pyGetD item "category",
   pyGetD item "calories_per_100g", pyGetD item "quantity_or_weight",
   pyGetD item "item_total_price", pyGetD meta "total_receipt_cost"]

/-- The extension test `name.lower().endswith('.pdf')`, the acceptance
filter appearing verbatim in both the watchdog handler (src/main.py line
109) and the startup listing (line 118). -/
def acceptsPdf (name : String) : Bool :=
  List.isSuffixOf ['.', 'p', 'd', 'f'] (name.data.map Char.toLower)

/-- A watchdog filesystem creation event: the created path and whether it
is a directory. -/
structure FsEvent where
  is_directory : Bool
  src_path : String
deriving DecidableEq

/-- Observable actions of the main program, in the order they happen:
processing a startup-queue file, starting the observer, the quiescence
sleep, and processing a file from a live creation event. -/
inductive Event where
  | startupProcess (name : String)
  | watcherStarted
  | sleep (seconds : Nat)
  | liveProcess (path : String)
deriving DecidableEq

/-- `ReceiptHandler.on_created` (src/main.py lines 108-111) as the list of
actions it performs for one event: for a non-directory path ending
case-insensitively in `.pdf`, sleep 2 seconds and then process the path;
otherwise nothing. -/
def on_created (e : FsEvent) : List Event :=
  if !e.is_directory && acceptsPdf e.src_path then
    [.sleep 2, .liveProcess e.src_path]
  else []

/-- The startup listing (src/main.py line 118): the entries of the
Incoming directory whose names pass the extension test. -/
def existing_pdfs (listing : List String) : List String :=
  listing.filter fun f => acceptsPdf f

/-- The action trace of `__main__` (src/main.py lines 113-138): process
every file of the startup listing in order, then start the observer, then
perform the handler's actions for each delivered creation event in
delivery order. `listing` is what `os.listdir(IN_FOLDER)` returned at
start; `events` are the creation events the observer delivers after
`observer.start()`. -/
def mainTrace (listing : List String) (events : List FsEvent) : List Event :=
  (existing_pdfs listing).map .startupProcess
    ++ [.watcherStarted]
    ++ events.flatMap on_created

/-- Whether an action is the startup-queue processing of some file. -/
def isStartupEvent : Event → Bool
  | .startupProcess _ => true
  | _ => false

/-- Whether an action is the processing of a live-event path. -/
def isLiveEvent : Event → Bool
  | .liveProcess _ => true
  | _ => false

/-- Modelled from the spec: the expected response shape of the extraction
contract — "an object containing `receipt_metadata` and an `items`
array". Used only to state what the spec calls a well-shaped response;
the program itself never checks this. -/
def hasExpectedShape (v : JVal) : Bool :=
  match v with
  | .obj fields =>
    (fields.lookup "receipt_metadata").isSome &&
      (match fields.lookup "items" with
       | some (.arr _) => true
       | _ => false)
  | _ => false

/-! Helper lemmas -/

theorem not_mem_erase_self_of_count_le_one {l : List String} {a : String}
    (h : l.count a ≤ 1) : a ∉ l.erase a := by
  intro hmem
  have h1 : 0 < (l.erase a).count a := List.count_pos_iff.mpr hmem
  rw [List.count_erase_self] at h1
  omega

/-- When both moves succeed, every path through `process_receipt` ends in
exactly one of the two terminal moves, with no exception escaping. -/
theorem process_receipt_terminal_cases (env : Env) (name : String) (fs : FS)
    (sink : List (List (List JVal)))
    (hP : env.moveProcessedOk = true) (hE : env.moveErrorOk = true) :
    (∃ sk, process_receipt env name fs sink = ⟨moveToProcessed fs name, sk, false⟩) ∨
    (∃ sk, process_receipt env name fs sink = ⟨moveToError fs name, sk, false⟩) := by
  cases htr : tryRows env with
  | error e =>
    exact .inr ⟨sink, by simp [process_receipt, quarantineMove, htr, hE]⟩
  | ok rows =>
    by_cases hr : rows.isEmpty = true
    · exact .inl ⟨sink, by simp [process_receipt, htr, hr, hP]⟩
    · by_cases hs : env.sinkOk = true
      · exact .inl ⟨sink ++ [rows], by simp [process_receipt, htr, hr, hs, hP]⟩
      · exact .inr ⟨sink, by simp [process_receipt, quarantineMove, htr, hr, hs, hE]⟩

theorem isObj_exists {v : JVal} (h : v.isObj = true) :
    ∃ fields, v = .obj fields := by
  cases v <;> first | exact ⟨_, rfl⟩ | simp [JVal.isObj] at h

/-- `d.get` on a non-dict raises. -/
theorem dictGet_of_not_obj {v : JVal} (h : v.isObj = false)
    (key : String) (dflt : JVal) : dictGet v key dflt = .error .attrError := by
  cases v <;> first | rfl | simp [JVal.isObj] at h

/-- Building the row for a well-formed metadata/item pair succeeds and
produces exactly the fixed-order 8-field projection. -/
theorem mkRow_ok (mfs ifs : List (String × JVal)) :
    mkRow (.obj mfs) (.obj ifs) = .ok (rowSpec (.obj mfs) (.obj ifs)) := rfl

/-- The row-building loop over a list of item objects succeeds and maps
each item to its projection, preserving order. -/
theorem buildRows_ok (mfs : List (String × JVal)) (items : List JVal)
    (h : ∀ it ∈ items, it.isObj = true) :
    buildRows (.obj mfs) items = .ok (items.map (rowSpec (.obj mfs))) := by
  induction items with
  | nil => rfl
  | cons it rest ih =>
    obtain ⟨ifs, rfl⟩ := isObj_exists (h it (List.mem_cons_self _ _))
    have ih' := ih fun x hx => h x (List.mem_cons_of_mem _ hx)
    simp only [buildRows, mkRow_ok, ih', List.map_cons]
    rfl

/-- Under a response of the expected shape with item objects, the `try`
block runs to completion and yields one projected row per item. -/
theorem tryRows_of_shape (env : Env) (dfs mfs : List (String × JVal))
    (itemsL : List JVal)
    (hx : env.extractOk = true) (hp : env.parsed = .ok (.obj dfs))
    (hm : dfs.lookup "receipt_metadata" = some (.obj mfs))
    (hi : dfs.lookup "items" = some (.arr itemsL))
    (hobj : ∀ it ∈ itemsL, it.isObj = true) :
    tryRows env = .ok (itemsL.map (rowSpec (.obj mfs))) := by
  obtain ⟨x, p, s, mp, me⟩ := env
  replace hx : x = true := hx
  replace hp : p = .ok (.obj dfs) := hp
  subst hx; subst hp
  show pyIter ((dfs.lookup "items").getD (.arr []))
      >>= buildRows ((dfs.lookup "receipt_metadata").getD (.obj []))
    = .ok (itemsL.map (rowSpec (.obj mfs)))
  rw [hm, hi]
  exact buildRows_ok mfs itemsL hobj

/-- An unparseable response text aborts the `try` block at `json.loads`. -/
theorem tryRows_of_unparseable (env : Env) (u : Unit)
    (hx : env.extractOk = true) (hp : env.parsed = .error u) :
    tryRows env = .error .jsonError := by
  obtain ⟨x, p, s, mp, me⟩ := env
  replace hx : x = true := hx
  replace hp : p = .error u := hp
  subst hx; subst hp
  rfl

/-- A response parsing to a non-object aborts the `try` block at
`data.get("receipt_metadata", {})`. -/
theorem tryRows_of_not_obj (env : Env) (v : JVal)
    (hx : env.extractOk = true) (hp : env.parsed = .ok v)
    (hv : v.isObj = false) : tryRows env = .error .attrError := by
  obtain ⟨x, p, s, mp, me⟩ := env
  replace hx : x = true := hx
  replace hp : p = .ok v := hp
  subst hx; subst hp
  cases v <;> first | rfl | simp [JVal.isObj] at hv

/-- A parseable object with no `items` key yields an empty `rows_to_add`:
the default `[]` is iterated and the loop body never runs. -/
theorem tryRows_of_missing_items (env : Env) (dfs : List (String × JVal))
    (hx : env.extractOk = true) (hp : env.parsed = .ok (.obj dfs))
    (hi : dfs.lookup "items" = none) : tryRows env = .ok [] := by
  obtain ⟨x, p, s, mp, me⟩ := env
  replace hx : x = true := hx
  replace hp : p = .ok (.obj dfs) := hp
  subst hx; subst hp
  show pyIter ((dfs.lookup "items").getD (.arr []))
      >>= buildRows ((dfs.lookup "receipt_metadata").getD (.obj []))
    = .ok []
  rw [hi]
  rfl

/-- With a non-empty row batch, a working sink and a working Processed
move, `process_receipt` appends the batch once and commits to Processed. -/
theorem process_receipt_ok_nonempty (env : Env) (name : String) (fs : FS)
    (sink : List (List (List JVal))) (rows : List (List JVal))
    (htr : tryRows env = .ok rows) (hne : rows.isEmpty = false)
    (hs : env.sinkOk = true) (hmp : env.moveProcessedOk = true) :
    process_receipt env name fs sink = ⟨moveToProcessed fs name, sink ++ [rows], false⟩ := by
  simp [process_receipt, htr, hne, hs, hmp]

/-- With an empty row batch and a working Processed move,
`process_receipt` touches neither the sink nor the Error directory. -/
theorem process_receipt_ok_empty (env : Env) (name : String) (fs : FS)
    (sink : List (List (List JVal)))
    (htr : tryRows env = .ok []) (hmp : env.moveProcessedOk = true) :
    process_receipt env name fs sink = ⟨moveToProcessed fs name, sink, false⟩ := by
  simp [process_receipt, htr, hmp]

/-- When the `try` block fails and the quarantine move works, the file is
moved to Error and the sink is untouched. -/
theorem process_receipt_of_tryRows_error (env : Env) (name : String) (fs : FS)
    (sink : List (List (List JVal))) (e : PyErr)
    (htr : tryRows env = .error e) (hme : env.moveErrorOk = true) :
    process_receipt env name fs sink = ⟨moveToError fs name, sink, false⟩ := by
  simp [process_receipt, quarantineMove, htr, hme]

/-- Everything the handler emits for one event is a sleep or a live
processing of that event's path. -/
theorem mem_on_created_cases (ev : FsEvent) (x : Event) (hx : x ∈ on_created ev) :
    x = .sleep 2 ∨ x = .liveProcess ev.src_path := by
  unfold on_created at hx
  split at hx
  · simpa using hx
  · cases hx

/-- No handler action is a startup-queue processing. -/
theorem startupProcess_notin_on_created (f : String) (ev : FsEvent) :
    Event.startupProcess f ∉ on_created ev := by
  intro h
  rcases mem_on_created_cases ev _ h with h | h <;> cases h

/-- The main trace, with the two appends of its definition reassociated
so that the observer start heads the suffix. -/
theorem mainTrace_eq (listing : List String) (events : List FsEvent) :
    mainTrace listing events =
      (existing_pdfs listing).map Event.startupProcess ++
        (Event.watcherStarted :: events.flatMap on_created) := by
  unfold mainTrace
  rw [List.append_assoc]
  rfl

/-- The element sitting right after a prefix `A` of an append is the head
of the suffix. -/
theorem getElem?_append_at_prefix_length {α : Type} (A : List α) (w : α)
    (L : List α) : (A ++ (w :: L))[A.length]? = some w := by
  induction A with
  | nil => simp
  | cons a A ih => simpa using ih

/-- In `A ++ B`, an element satisfying a predicate that fails everywhere
in `B` must sit at an index inside `A`. -/
theorem index_lt_of_pred_notin_suffix {α : Type} (p : α → Bool) (A B : List α)
    (hB : ∀ e ∈ B, p e = false) (i : Nat) (e : α)
    (he : (A ++ B)[i]? = some e) (hp : p e = true) : i < A.length := by
  by_contra hge
  push_neg at hge
  rw [List.getElem?_append_right hge] at he
  rw [hB e (List.getElem?_mem he)] at hp
  exact Bool.noConfusion hp

/-- In `A ++ B`, an element satisfying a predicate that fails everywhere
in `A` must sit at an index past `A`. -/
theorem index_ge_of_pred_notin_prefix {α : Type} (p : α → Bool) (A B : List α)
    (hA : ∀ e ∈ A, p e = false) (j : Nat) (e : α)
    (he : (A ++ B)[j]? = some e) (hp : p e = true) : A.length ≤ j := by
  by_contra hlt
  push_neg at hlt
  rw [List.getElem?_append_left hlt] at he
  rw [hA e (List.getElem?_mem he)] at hp
  exact Bool.noConfusion hp

/-! Claim theorems -/

/-- C1: for every file handed to `process_receipt`, assuming the directory
moves themselves succeed, after the call the file is no longer in Incoming
and resides in exactly one of the two terminal directories (Processed or
Error); no execution path leaves it in Incoming or places it in both. -/
theorem c1_exactly_one_terminal (env : Env) (name : String) (fs : FS)
    (sink : List (List (List JVal)))
    (hP : env.moveProcessedOk = true) (hE : env.moveErrorOk = true)
    (hcount : fs.incoming.count name ≤ 1)
    (hproc : name ∉ fs.processed) (herr : name ∉ fs.errorDir) :
    (process_receipt env name fs sink).raised = false ∧
    name ∉ (process_receipt env name fs sink).fs.incoming ∧
    ((name ∈ (process_receipt env name fs sink).fs.processed ∧
        name ∉ (process_receipt env name fs sink).fs.errorDir) ∨
      (name ∈ (process_receipt env name fs sink).fs.errorDir ∧
        name ∉ (process_receipt env name fs sink).fs.processed)) := by
  have hni := not_mem_erase_self_of_count_le_one hcount
  rcases process_receipt_terminal_cases env name fs sink hP hE with ⟨sk, heq⟩ | ⟨sk, heq⟩
  · rw [heq]
    exact ⟨rfl, hni, .inl ⟨by simp [moveToProcessed], by simpa [moveToProcessed] using herr⟩⟩
  · rw [heq]
    exact ⟨rfl, hni, .inr ⟨by simp [moveToError], by simpa [moveToError] using hproc⟩⟩

/-- C1 witness: a concrete run (empty-object response, all moves succeed)
starting from Incoming = \x7b a.pdf \x7d. -/
theorem c1_exactly_one_terminal_witness :
    (⟨true, .ok (.obj []), true, true, true⟩ : Env).moveProcessedOk = true ∧
    (["a.pdf"] : List String).count "a.pdf" ≤ 1 ∧
    ((process_receipt ⟨true, .ok (.obj []), true, true, true⟩ "a.pdf"
        ⟨["a.pdf"], [], []⟩ []).raised = false ∧
      "a.pdf" ∉ (process_receipt ⟨true, .ok (.obj []), true, true, true⟩ "a.pdf"
        ⟨["a.pdf"], [], []⟩ []).fs.incoming ∧
      (("a.pdf" ∈ (process_receipt ⟨true, .ok (.obj []), true, true, true⟩ "a.pdf"
            ⟨["a.pdf"], [], []⟩ []).fs.processed ∧
          "a.pdf" ∉ (process_receipt ⟨true, .ok (.obj []), true, true, true⟩ "a.pdf"
            ⟨["a.pdf"], [], []⟩ []).fs.errorDir) ∨
        ("a.pdf" ∈ (process_receipt ⟨true, .ok (.obj []), true, true, true⟩ "a.pdf"
            ⟨["a.pdf"], [], []⟩ []).fs.errorDir ∧
          "a.pdf" ∉ (process_receipt ⟨true, .ok (.obj []), true, true, true⟩ "a.pdf"
            ⟨["a.pdf"], [], []⟩ []).fs.processed))) :=
  ⟨rfl, by decide,
    c1_exactly_one_terminal _ "a.pdf" ⟨["a.pdf"], [], []⟩ [] rfl rfl (by decide)
      (by decide) (by decide)⟩

/-- C2: `process_receipt` raises to its caller exactly when the attempt
failed and the quarantine move itself then fails; every other failure is
caught and converted into a move to the Error directory. -/
theorem c2_raise_only_on_quarantine_failure (env : Env) (name : String) (fs : FS)
    (sink : List (List (List JVal))) :
    ((process_receipt env name fs sink).raised = true ↔
      attemptSucceeds env = false ∧ env.moveErrorOk = false) ∧
    (attemptSucceeds env = false → env.moveErrorOk = true →
      name ∈ (process_receipt env name fs sink).fs.errorDir) := by
  cases htr : tryRows env with
  | error e =>
    cases hme : env.moveErrorOk <;>
      simp [process_receipt, attemptSucceeds, quarantineMove, moveToError, htr, hme]
  | ok rows =>
    cases hr : rows.isEmpty <;> cases hs : env.sinkOk <;>
      cases hp : env.moveProcessedOk <;> cases hme : env.moveErrorOk <;>
      simp [process_receipt, attemptSucceeds, quarantineMove, moveToError,
        htr, hr, hs, hp, hme]

/-- C2 witness: a transport failure with a working Error directory is
caught and quarantined, with no exception escaping. -/
theorem c2_raise_only_on_quarantine_failure_witness :
    attemptSucceeds ⟨false, .error (), true, true, true⟩ = false ∧
    "a.pdf" ∈ (process_receipt ⟨false, .error (), true, true, true⟩ "a.pdf"
      ⟨["a.pdf"], [], []⟩ []).fs.errorDir :=
  ⟨rfl,
    (c2_raise_only_on_quarantine_failure ⟨false, .error (), true, true, true⟩
      "a.pdf" ⟨["a.pdf"], [], []⟩ []).2 rfl rfl⟩

/-- C3 counterexample: the response text `{}` parses to an object lacking
both `receipt_metadata` and `items`, so it does not have the expected
shape — yet `process_receipt` commits the file to Processed, not Error:
the `dict.get` defaults turn the missing keys into an empty metadata
object and an empty items list. -/
theorem c3_counterexample_empty_object :
    hasExpectedShape (.obj []) = false ∧
    process_receipt ⟨true, .ok (.obj []), true, true, true⟩ "r.pdf"
        ⟨["r.pdf"], [], []⟩ [] =
      ⟨⟨[], ["r.pdf"], []⟩, [], false⟩ :=
  ⟨rfl, rfl⟩

/-- C3 amended: a response that is unparseable text, or parses to a
non-object value, fails the attempt — zero rows are appended and the file
is committed to Error; but a parseable object merely lacking the `items`
key is tolerated via the `dict.get` defaults: zero rows are appended and
the file is committed to Processed. -/
theorem c3_amended_malformed_handling (env : Env) (name : String) (fs : FS)
    (sink : List (List (List JVal))) :
    (∀ u : Unit, env.extractOk = true → env.parsed = .error u →
      env.moveErrorOk = true →
      process_receipt env name fs sink = ⟨moveToError fs name, sink, false⟩) ∧
    (∀ v : JVal, env.extractOk = true → env.parsed = .ok v → v.isObj = false →
      env.moveErrorOk = true →
      process_receipt env name fs sink = ⟨moveToError fs name, sink, false⟩) ∧
    (∀ dfs : List (String × JVal), env.extractOk = true →
      env.parsed = .ok (.obj dfs) → dfs.lookup "items" = none →
      env.moveProcessedOk = true →
      process_receipt env name fs sink = ⟨moveToProcessed fs name, sink, false⟩) := by
  refine ⟨?_, ?_, ?_⟩
  · intro u hx hp hme
    exact process_receipt_of_tryRows_error env name fs sink _
      (tryRows_of_unparseable env u hx hp) hme
  · intro v hx hp hv hme
    exact process_receipt_of_tryRows_error env name fs sink _
      (tryRows_of_not_obj env v hx hp hv) hme
  · intro dfs hx hp hi hmp
    exact process_receipt_ok_empty env name fs sink
      (tryRows_of_missing_items env dfs hx hp hi) hmp

/-- C3 amended witness: an unparseable response is quarantined with the
sink untouched. -/
theorem c3_amended_malformed_handling_witness :
    process_receipt ⟨true, .error (), true, true, true⟩ "r.pdf"
        ⟨["r.pdf"], [], []⟩ [] =
      ⟨moveToError ⟨["r.pdf"], [], []⟩ "r.pdf", [], false⟩ :=
  (c3_amended_malformed_handling ⟨true, .error (), true, true, true⟩ "r.pdf"
    ⟨["r.pdf"], [], []⟩ []).1 () rfl rfl rfl

/-- C4: a successfully processed file with N extracted items appends
exactly N rows to the sink in one batch call, in item order; every row is
the fixed-order 8-field tuple, and the three metadata-derived fields
(positions 0, 1 and 7) are the same shared metadata values on every row. -/
theorem c4_row_conservation (env : Env) (name : String) (fs : FS)
    (sink : List (List (List JVal))) (dfs mfs : List (String × JVal))
    (itemsL : List JVal)
    (hx : env.extractOk = true) (hp : env.parsed = .ok (.obj dfs))
    (hm : dfs.lookup "receipt_metadata" = some (.obj mfs))
    (hi : dfs.lookup "items" = some (.arr itemsL))
    (hobj : ∀ it ∈ itemsL, it.isObj = true)
    (hne : itemsL ≠ [])
    (hs : env.sinkOk = true) (hmp : env.moveProcessedOk = true) :
    (process_receipt env name fs sink).raised = false ∧
    name ∈ (process_receipt env name fs sink).fs.processed ∧
    (process_receipt env name fs sink).sink =
      sink ++ [itemsL.map (rowSpec (.obj mfs))] ∧
    (itemsL.map (rowSpec (.obj mfs))).length = itemsL.length ∧
    ∀ row ∈ itemsL.map (rowSpec (.obj mfs)),
      row.length = 8 ∧
      row[0]? = some (pyGetD (.obj mfs) "date") ∧
      row[1]? = some (pyGetD (.obj mfs) "store") ∧
      row[7]? = some (pyGetD (.obj mfs) "total_receipt_cost") := by
  have htr := tryRows_of_shape env dfs mfs itemsL hx hp hm hi hobj
  have hne2 : (itemsL.map (rowSpec (.obj mfs))).isEmpty = false := by
    cases itemsL with
    | nil => exact absurd rfl hne
    | cons a l => rfl
  have heq := process_receipt_ok_nonempty env name fs sink _ htr hne2 hs hmp
  rw [heq]
  refine ⟨rfl, by simp [moveToProcessed], rfl, List.length_map _ _, ?_⟩
  intro row hrow
  obtain ⟨it, hit, rfl⟩ := List.mem_map.mp hrow
  exact ⟨rfl, rfl, rfl, rfl⟩

/-- C4 witness: a two-item receipt appends one batch of two rows carrying
the shared date, store and total on each row. -/
theorem c4_row_conservation_witness :
    (process_receipt
      ⟨true,
        .ok (.obj
          [("receipt_metadata",
            .obj [("date", .str "2024-05-01"), ("store", .str "X"),
              ("total_receipt_cost", .num 120)]),
           ("items",
            .arr [.obj [("product_name", .str "Milk")],
              .obj [("product_name", .str "Bread")]])]),
        true, true, true⟩
      "r.pdf" ⟨["r.pdf"], [], []⟩ []).sink =
    [[[.str "2024-05-01", .str "X", .str "Milk", .str "", .str "", .str "",
        .str "", .num 120],
      [.str "2024-05-01", .str "X", .str "Bread", .str "", .str "", .str "",
        .str "", .num 120]]] :=
  (c4_row_conservation
    ⟨true,
      .ok (.obj
        [("receipt_metadata",
          .obj [("date", .str "2024-05-01"), ("store", .str "X"),
            ("total_receipt_cost", .num 120)]),
         ("items",
          .arr [.obj [("product_name", .str "Milk")],
            .obj [("product_name", .str "Bread")]])]),
      true, true, true⟩
    "r.pdf" ⟨["r.pdf"], [], []⟩ []
    [("receipt_metadata",
      .obj [("date", .str "2024-05-01"), ("store", .str "X"),
        ("total_receipt_cost", .num 120)]),
     ("items",
      .arr [.obj [("product_name", .str "Milk")],
        .obj [("product_name", .str "Bread")]])]
    [("date", .str "2024-05-01"), ("store", .str "X"),
      ("total_receipt_cost", .num 120)]
    [.obj [("product_name", .str "Milk")], .obj [("product_name", .str "Bread")]]
    rfl rfl rfl rfl (by decide) (List.cons_ne_nil _ _) rfl rfl).2.2.1

/-- C5: a structurally valid response with an empty items array commits
the file to Processed and leaves the sink untouched; `env.sinkOk` is
unconstrained because the append call is never made. -/
theorem c5_empty_items_processed (env : Env) (name : String) (fs : FS)
    (sink : List (List (List JVal))) (dfs mfs : List (String × JVal))
    (hx : env.extractOk = true) (hp : env.parsed = .ok (.obj dfs))
    (hm : dfs.lookup "receipt_metadata" = some (.obj mfs))
    (hi : dfs.lookup "items" = some (.arr []))
    (hmp : env.moveProcessedOk = true) :
    (process_receipt env name fs sink).raised = false ∧
    name ∈ (process_receipt env name fs sink).fs.processed ∧
    (process_receipt env name fs sink).sink = sink := by
  have htr := tryRows_of_shape env dfs mfs [] hx hp hm hi (by intro it h; cases h)
  have heq := process_receipt_ok_empty env name fs sink htr hmp
  rw [heq]
  exact ⟨rfl, by simp [moveToProcessed], rfl⟩

/-- C5 witness: an empty-items receipt is committed to Processed with the
sink untouched even though the sink itself would fail if called. -/
theorem c5_empty_items_processed_witness :
    (process_receipt
      ⟨true, .ok (.obj [("receipt_metadata", .obj []), ("items", .arr [])]),
        false, true, true⟩
      "r.pdf" ⟨["r.pdf"], [], []⟩ []).raised = false ∧
    "r.pdf" ∈ (process_receipt
      ⟨true, .ok (.obj [("receipt_metadata", .obj []), ("items", .arr [])]),
        false, true, true⟩
      "r.pdf" ⟨["r.pdf"], [], []⟩ []).fs.processed ∧
    (process_receipt
      ⟨true, .ok (.obj [("receipt_metadata", .obj []), ("items", .arr [])]),
        false, true, true⟩
      "r.pdf" ⟨["r.pdf"], [], []⟩ []).sink = [] :=
  c5_empty_items_processed _ "r.pdf" ⟨["r.pdf"], [], []⟩ [] _ []
    rfl rfl rfl rfl rfl

/-- C6: an item or metadata object missing an individual field gets the
empty-string default substituted at that field's position, and the receipt
is still processed successfully to Processed with its row appended. -/
theorem c6_missing_fields_defaulted (env : Env) (name : String) (fs : FS)
    (sink : List (List (List JVal))) (dfs mfs ifs : List (String × JVal))
    (hx : env.extractOk = true) (hp : env.parsed = .ok (.obj dfs))
    (hm : dfs.lookup "receipt_metadata" = some (.obj mfs))
    (hi : dfs.lookup "items" = some (.arr [.obj ifs]))
    (hs : env.sinkOk = true) (hmp : env.moveProcessedOk = true) :
    (process_receipt env name fs sink).raised = false ∧
    name ∈ (process_receipt env name fs sink).fs.processed ∧
    (process_receipt env name fs sink).sink =
      sink ++ [[rowSpec (.obj mfs) (.obj ifs)]] ∧
    (mfs.lookup "date" = none →
      (rowSpec (.obj mfs) (.obj ifs))[0]? = some (.str "")) ∧
    (mfs.lookup "store" = none →
      (rowSpec (.obj mfs) (.obj ifs))[1]? = some (.str "")) ∧
    (ifs.lookup "product_name" = none →
      (rowSpec (.obj mfs) (.obj ifs))[2]? = some (.str "")) ∧
    (ifs.lookup "category" = none →
      (rowSpec (.obj mfs) (.obj ifs))[3]? = some (.str "")) ∧
    (ifs.lookup "calories_per_100g" = none →
      (rowSpec (.obj mfs) (.obj ifs))[4]? = some (.str "")) ∧
    (ifs.lookup "quantity_or_weight" = none →
      (rowSpec (.obj mfs) (.obj ifs))[5]? = some (.str "")) ∧
    (ifs.lookup "item_total_price" = none →
      (rowSpec (.obj mfs) (.obj ifs))[6]? = some (.str "")) ∧
    (mfs.lookup "total_receipt_cost" = none →
      (rowSpec (.obj mfs) (.obj ifs))[7]? = some (.str "")) := by
  have hobj : ∀ it ∈ [JVal.obj ifs], it.isObj = true := by
    intro it h
    rw [List.mem_singleton] at h
    subst h
    rfl
  have htr := tryRows_of_shape env dfs mfs [.obj ifs] hx hp hm hi hobj
  have heq := process_receipt_ok_nonempty env name fs sink _ htr rfl hs hmp
  rw [heq]
  refine ⟨rfl, by simp [moveToProcessed], rfl, ?_, ?_, ?_, ?_, ?_, ?_, ?_, ?_⟩ <;>
    intro h <;> simp [rowSpec, pyGetD, h]

/-- C6 witness: a receipt whose metadata and single item carry no fields
at all is still processed, appending one row of eight empty strings. -/
theorem c6_missing_fields_defaulted_witness :
    (process_receipt
      ⟨true, .ok (.obj [("receipt_metadata", .obj []), ("items", .arr [.obj []])]),
        true, true, true⟩
      "r.pdf" ⟨["r.pdf"], [], []⟩ []).sink =
      [[[.str "", .str "", .str "", .str "", .str "", .str "", .str "", .str ""]]] ∧
    "r.pdf" ∈ (process_receipt
      ⟨true, .ok (.obj [("receipt_metadata", .obj []), ("items", .arr [.obj []])]),
        true, true, true⟩
      "r.pdf" ⟨["r.pdf"], [], []⟩ []).fs.processed :=
  ⟨(c6_missing_fields_defaulted
      ⟨true, .ok (.obj [("receipt_metadata", .obj []), ("items", .arr [.obj []])]),
        true, true, true⟩
      "r.pdf" ⟨["r.pdf"], [], []⟩ []
      [("receipt_metadata", .obj []), ("items", .arr [.obj []])] [] []
      rfl rfl rfl rfl rfl rfl).2.2.1,
    (c6_missing_fields_defaulted
      ⟨true, .ok (.obj [("receipt_metadata", .obj []), ("items", .arr [.obj []])]),
        true, true, true⟩
      "r.pdf" ⟨["r.pdf"], [], []⟩ []
      [("receipt_metadata", .obj []), ("items", .arr [.obj []])] [] []
      rfl rfl rfl rfl rfl rfl).2.1⟩

/-- C10: an execution in which extraction and the sink append both succeed
but the move to Processed fails: the handler quarantines the file to
Error, yet the receipt's row batch has already been appended — Error does
not imply zero rows written. -/
theorem c10_error_with_rows_already_appended :
    process_receipt
      ⟨true,
        .ok (.obj
          [("receipt_metadata",
            .obj [("date", .str "2024-05-01"), ("store", .str "Hemkop"),
              ("total_receipt_cost", .num 15)]),
           ("items",
            .arr [.obj [("product_name", .str "Mjolk"), ("category", .str "Dairy"),
              ("calories_per_100g", .num 42), ("quantity_or_weight", .str "1L"),
              ("item_total_price", .num 15)]])]),
        true, false, true⟩
      "r.pdf" ⟨["r.pdf"], [], []⟩ [] =
    ⟨⟨[], [], ["r.pdf"]⟩,
      [[[.str "2024-05-01", .str "Hemkop", .str "Mjolk", .str "Dairy",
        .num 42, .str "1L", .num 15, .num 15]]],
      false⟩ := rfl

/-- C7 counterexample: `notes.txt` is present in Incoming at process
start, yet the startup loop never feeds it through `process_receipt` (the
listing is filtered to `.pdf` names), so "every file present … is fed
through process_receipt" fails as stated: the whole trace is just the
observer start. -/
theorem c7_counterexample_nonpdf_present :
    "notes.txt" ∈ ["notes.txt"] ∧
    acceptsPdf "notes.txt" = false ∧
    mainTrace ["notes.txt"] [] = [Event.watcherStarted] :=
  ⟨by decide, by decide, by decide⟩

/-- C7 amended: every file with the accepted `.pdf` extension present at
start is fed through the startup loop; the observer start sits in the
trace right after the startup batch; every startup processing action
happens strictly before the observer start, and every live processing
action strictly after it. -/
theorem c7_amended_startup_precedes_live (listing : List String)
    (events : List FsEvent) :
    (∀ f ∈ listing, acceptsPdf f = true →
      Event.startupProcess f ∈ mainTrace listing events) ∧
    ((mainTrace listing events)[(existing_pdfs listing).length]? =
      some Event.watcherStarted) ∧
    (∀ i e, (mainTrace listing events)[i]? = some e →
      isStartupEvent e = true → i < (existing_pdfs listing).length) ∧
    (∀ j e, (mainTrace listing events)[j]? = some e →
      isLiveEvent e = true → (existing_pdfs listing).length < j) := by
  refine ⟨?_, ?_, ?_, ?_⟩
  · intro f hf ha
    rw [mainTrace_eq]
    apply List.mem_append.mpr
    exact .inl (List.mem_map.mpr ⟨f, List.mem_filter.mpr ⟨hf, ha⟩, rfl⟩)
  · rw [mainTrace_eq]
    have h := getElem?_append_at_prefix_length
      ((existing_pdfs listing).map Event.startupProcess)
      Event.watcherStarted (events.flatMap on_created)
    rw [List.length_map] at h
    exact h
  · intro i e he hs
    rw [mainTrace_eq] at he
    have hB : ∀ x ∈ Event.watcherStarted :: events.flatMap on_created,
        isStartupEvent x = false := by
      intro x hx
      rcases List.mem_cons.mp hx with h1 | h2
      · subst h1
        rfl
      · obtain ⟨ev, _, hmem⟩ := List.mem_flatMap.mp h2
        rcases mem_on_created_cases ev x hmem with rfl | rfl <;> rfl
    have h3 := index_lt_of_pred_notin_suffix isStartupEvent
      ((existing_pdfs listing).map Event.startupProcess)
      (Event.watcherStarted :: events.flatMap on_created) hB i e he hs
    rw [List.length_map] at h3
    exact h3
  · intro j e he hl
    replace he : (((existing_pdfs listing).map Event.startupProcess
        ++ [Event.watcherStarted]) ++ events.flatMap on_created)[j]? = some e := he
    have hA : ∀ x ∈ (existing_pdfs listing).map Event.startupProcess
        ++ [Event.watcherStarted], isLiveEvent x = false := by
      intro x hx
      rcases List.mem_append.mp hx with h1 | h2
      · obtain ⟨f, _, rfl⟩ := List.mem_map.mp h1
        rfl
      · rw [List.mem_singleton] at h2
        subst h2
        rfl
    have h4 := index_ge_of_pred_notin_prefix isLiveEvent
      ((existing_pdfs listing).map Event.startupProcess ++ [Event.watcherStarted])
      (events.flatMap on_created) hA j e he hl
    rw [List.length_append, List.length_map] at h4
    simp only [List.length_singleton] at h4
    omega

/-- C7 amended witness: with `a.pdf` present at start and `b.pdf` dropped
live, the startup processing is fed before the observer starts and the
live processing happens strictly after the startup batch. -/
theorem c7_amended_startup_precedes_live_witness :
    acceptsPdf "a.pdf" = true ∧
    Event.startupProcess "a.pdf" ∈ mainTrace ["a.pdf"] [⟨false, "b.pdf"⟩] ∧
    (existing_pdfs ["a.pdf"]).length < 3 :=
  ⟨by decide,
    (c7_amended_startup_precedes_live ["a.pdf"] [⟨false, "b.pdf"⟩]).1 "a.pdf"
      (by decide) (by decide),
    (c7_amended_startup_precedes_live ["a.pdf"] [⟨false, "b.pdf"⟩]).2.2.2 3
      (.liveProcess "b.pdf") (by decide) (by decide)⟩

/-- C8: the startup reconciler selects exactly the listed entries whose
names pass the case-insensitive `.pdf` test and feeds each of them, and
that test is the identical acceptance filter the live watcher applies to
a non-directory creation event. -/
theorem c8_reconciler_same_filter (listing : List String)
    (events : List FsEvent) :
    (∀ f, Event.startupProcess f ∈ mainTrace listing events ↔
      f ∈ listing ∧ acceptsPdf f = true) ∧
    (∀ e : FsEvent, e.is_directory = false →
      (Event.liveProcess e.src_path ∈ on_created e ↔
        acceptsPdf e.src_path = true)) := by
  constructor
  · intro f
    rw [mainTrace_eq]
    simp [existing_pdfs, List.mem_append, List.mem_map, List.mem_filter,
      List.mem_flatMap, startupProcess_notin_on_created]
  · intro e hd
    by_cases ha : acceptsPdf e.src_path = true <;>
      simp [on_created, hd, ha]

/-- C8 witness: `a.pdf` in the startup listing is selected and fed; the
watcher accepts the same name on a non-directory event. -/
theorem c8_reconciler_same_filter_witness :
    (Event.startupProcess "a.pdf" ∈ mainTrace ["a.pdf"] [] ↔
      "a.pdf" ∈ ["a.pdf"] ∧ acceptsPdf "a.pdf" = true) ∧
    (Event.liveProcess "a.pdf" ∈ on_created ⟨false, "a.pdf"⟩ ↔
      acceptsPdf "a.pdf" = true) :=
  ⟨(c8_reconciler_same_filter ["a.pdf"] []).1 "a.pdf",
    (c8_reconciler_same_filter ["a.pdf"] []).2 ⟨false, "a.pdf"⟩ rfl⟩

/-- C9: a creation event leads to processing exactly when it is not for a
directory and its path ends case-insensitively in `.pdf`, and then the
fixed 2-second quiescence sleep precedes the processing call; every other
event produces no action at all. -/
theorem c9_event_filter_and_quiescence (e : FsEvent) :
    (on_created e = [.sleep 2, .liveProcess e.src_path] ↔
      e.is_directory = false ∧ acceptsPdf e.src_path = true) ∧
    (on_created e = [] ↔
      ¬(e.is_directory = false ∧ acceptsPdf e.src_path = true)) := by
  obtain ⟨d, p⟩ := e
  cases d <;> by_cases ha : acceptsPdf p = true <;>
    simp [on_created, ha]

end Matsmart
